import Mathlib

/-!
# Verification of the infinitive HVAC bridge (`infinitive.go`)

Shallow embedding of the state-projection and mutation code of the
repository's `infinitive.go` (the later revision of the file, which is the
one carrying `putConfig`, the mqtt mirror keys and the damper snoop), plus
the small pieces of the Go standard library it calls
(`strconv.Atoi`, `strconv.ParseUint`, `binary.BigEndian.Uint16`,
`bytes.Trim`, `fmt.Sprintf` number formatting).

Go byte/uint16 values are modelled as `Nat` (no arithmetic here can
overflow 8/16 bits: setpoints are parsed with `ParseUint(_, 10, 8)`,
shifts are by at most 7 bits of a single byte).  Go `float32` only occurs
as `uint16 / 16`, which is exact in binary floating point, so temperatures
are modelled as `ℚ`.  Fixed-size Go arrays are modelled as `List Nat` of
the corresponding length, updated with `List.set` and read with
`List.getD` (all source reads are in range).
-/

set_option autoImplicit false

namespace Infinitive

/-! ## Go standard-library helpers -/

/-- Decimal digit string to number: the digit-accumulation loop shared by
`strconv.Atoi` and `strconv.ParseUint`.  `none` when the string is empty
or has a non-digit character. -/
def parseDecDigits (cs : List Char) : Option Nat :=
  if cs ≠ [] ∧ cs.all (fun c => c.isDigit) then
    some (cs.foldl (fun a c => a * 10 + (c.toNat - 48)) 0)
  else
    none

/-- `strconv.Atoi`: optional single leading sign, then at least one
decimal digit.  (Overflow of the machine `int` is not modelled; inputs
that overflow in Go are rejected by the 0..8 zone-range check just as the
huge parsed value is here, so `putConfig` is unaffected.) -/
def goAtoi (s : String) : Option Int :=
  match s.toList with
  | '-' :: rest => (parseDecDigits rest).map (fun n => -(n : Int))
  | '+' :: rest => (parseDecDigits rest).map (fun n => (n : Int))
  | cs => (parseDecDigits cs).map (fun n => (n : Int))

/-- `strconv.ParseUint(s, 10, 8)`: no sign allowed, decimal digits only,
result must fit in 8 bits. -/
def goParseUint8 (s : String) : Option Nat :=
  match parseDecDigits s.toList with
  | none => none
  | some n => if n ≤ 255 then some n else none

/-- `binary.BigEndian.Uint16`: big-endian 16-bit read of the first two
bytes of a slice. -/
def goBigEndianUint16 (b : List Nat) : Nat :=
  256 * b.getD 0 0 + b.getD 1 0

/-- `bytes.Trim(s, cutset)`: removes the leading and trailing bytes that
are in `cutset` (both ends). -/
def goBytesTrim (s cutset : List Nat) : List Nat :=
  (((s.dropWhile (fun b => cutset.contains b)).reverse.dropWhile
      (fun b => cutset.contains b)).reverse)

/-- `fmt` verb `%02d`: decimal, zero-padded on the left to width 2. -/
def pad2 (n : Nat) : String :=
  let s := Nat.repr n
  String.mk (List.replicate (2 - s.length) '0') ++ s

/-! ## Enum translators

The translator functions live in a file of the repository that is not
part of the supplied source; they are modelled from the spec. -/

/-- Modelled from the spec: `stringFanModeToRaw`, inverse of the fan-mode
table `0→"auto", 1→"low", 2→"medium", 3→"high"`. -/
def stringFanModeToRaw (s : String) : Option Nat :=
  if s = "auto" then some 0
  else if s = "low" then some 1
  else if s = "medium" then some 2
  else if s = "high" then some 3
  else none

/-- Modelled from the spec: `rawFanModeToString`,
`0→"auto", 1→"low", 2→"medium", 3→"high", else "unknown"`. -/
def rawFanModeToString (n : Nat) : String :=
  if n = 0 then "auto"
  else if n = 1 then "low"
  else if n = 2 then "medium"
  else if n = 3 then "high"
  else "unknown"

/-- Modelled from the spec: `rawModeToString`,
`0→"off", 1→"heat", 2→"cool", 3→"auto", 4→"electric", 5→"heatpump",
else "unknown"`. -/
def rawModeToString (n : Nat) : String :=
  if n = 0 then "off"
  else if n = 1 then "heat"
  else if n = 2 then "cool"
  else if n = 3 then "auto"
  else if n = 4 then "electric"
  else if n = 5 then "heatpump"
  else "unknown"

/-- Modelled from the spec: `stringModeToRaw`, inverse of
`rawModeToString` on the named modes. -/
def stringModeToRaw (s : String) : Option Nat :=
  if s = "off" then some 0
  else if s = "heat" then some 1
  else if s = "cool" then some 2
  else if s = "auto" then some 3
  else if s = "electric" then some 4
  else if s = "heatpump" then some 5
  else none

/-- Modelled from the spec: `rawActionToString`, derived from the stage
bits: `0→"idle"`, else `"active"`. -/
def rawActionToString (n : Nat) : String :=
  if n = 0 then "idle" else "active"

/-! ## Register tables

Field layouts of `TStatZoneParams` / `TStatCurrentParams` come from the
repository's table registry (not in the supplied source); only the fields
the supplied code reads or writes are modelled.  Per-zone arrays have 8
entries; zone names are 12 raw bytes each. -/

structure TStatZoneParams where
  ZFanMode : List Nat
  ZCoolSetpoint : List Nat
  ZHeatSetpoint : List Nat
  ZoneHold : Nat
  ZOvrdDuration : List Nat
  ZName : List (List Nat)
  ZTargetHumidity : List Nat
deriving DecidableEq, Repr

structure TStatCurrentParams where
  ZCurrentTemp : List Nat
  ZCurrentHumidity : List Nat
  OutdoorAirTemp : Nat
  Mode : Nat
deriving DecidableEq, Repr

/-- The Go zero value of `TStatZoneParams` (all bytes zero), the starting
point of `putConfig`'s write payload. -/
def zeroZoneParams : TStatZoneParams where
  ZFanMode := List.replicate 8 0
  ZCoolSetpoint := List.replicate 8 0
  ZHeatSetpoint := List.replicate 8 0
  ZoneHold := 0
  ZOvrdDuration := List.replicate 8 0
  ZName := List.replicate 8 (List.replicate 12 0)
  ZTargetHumidity := List.replicate 8 0

/-! ## Mutation path: `putConfig` -/

/-- A write issued on the bus by `putConfig`: either
`infinity.WriteTableZ(devTSTAT, params, zi, flags)` against
`TStatZoneParams`, or `infinity.WriteTable(devTSTAT, p, mask)` against
`TStatCurrentParams` (only the mode byte of the latter is ever set). -/
inductive WriteAction where
  | writeZ (params : TStatZoneParams) (zi : Nat) (flags : Nat)
  | writeTable (mode : Nat) (mask : Nat)
deriving DecidableEq, Repr

/-- Zone-parameter switch of `putConfig` (the `zn >= 1 && zn <= 8` arm):
yields the payload `params` and the write mask `flags`, or `none` on an
unrecognized parameter or value. -/
def putConfigZ (zi : Nat) (param value : String) : Option (TStatZoneParams × Nat) :=
  if param = "fanMode" then
    match stringFanModeToRaw value with
    | none => none
    | some mode => some ({ zeroZoneParams with ZFanMode := zeroZoneParams.ZFanMode.set zi mode }, 0x01)
  else if param = "coolSetpoint" then
    match goParseUint8 value with
    | none => none
    | some v => some ({ zeroZoneParams with ZCoolSetpoint := zeroZoneParams.ZCoolSetpoint.set zi v }, 0x08)
  else if param = "heatSetpoint" then
    match goParseUint8 value with
    | none => none
    | some v => some ({ zeroZoneParams with ZHeatSetpoint := zeroZoneParams.ZHeatSetpoint.set zi v }, 0x04)
  else if param = "hold" then
    if value = "true" then some ({ zeroZoneParams with ZoneHold := 1 <<< zi }, 0x02)
    else if value = "false" then some (zeroZoneParams, 0x02)
    else none
  else if param = "preset" then
    if value = "hold" then some ({ zeroZoneParams with ZoneHold := 1 <<< zi }, 0x02)
    else if value = "none" then some (zeroZoneParams, 0x02)
    else none
  else none

/-- `putConfig(zone, param, value)`: returns the Go `ok` boolean together
with the list of writes issued on the bus (in order).  Mirrors the source:
`strconv.Atoi` on the zone, the 1..8 zone-parameter arm issuing one
`WriteTableZ` when `flags != 0`, the `zn == 0` global-mode arm issuing one
`WriteTable` with mask `0x10`, and failure (no write) everywhere else. -/
def putConfig (zone param value : String) : Bool × List WriteAction :=
  match goAtoi zone with
  | none => (false, [])
  | some zn =>
    if 1 ≤ zn ∧ zn ≤ 8 then
      match putConfigZ (zn - 1).toNat param value with
      | none => (false, [])
      | some (params, flags) =>
        (true, if flags ≠ 0 then [WriteAction.writeZ params (zn - 1).toNat flags] else [])
    else if zn = 0 then
      if param = "mode" then
        match stringModeToRaw value with
        | none => (false, [])
        | some mode => (true, [WriteAction.writeTable mode 0x10])
      else (false, [])
    else (false, [])

/-- The recognized `param`/`value` pairs of the zone arm of `putConfig`
(spec §4.9, zone `"1".."8"`). -/
def validZonePV (param value : String) : Bool :=
  (decide (param = "fanMode") && (stringFanModeToRaw value).isSome) ||
  (decide (param = "coolSetpoint") && (goParseUint8 value).isSome) ||
  (decide (param = "heatSetpoint") && (goParseUint8 value).isSome) ||
  (decide (param = "hold") && (decide (value = "true") || decide (value = "false"))) ||
  (decide (param = "preset") && (decide (value = "hold") || decide (value = "none")))

/-- The recognized `zone`/`param`/`value` combinations of `putConfig`,
as enumerated by spec §4.9: a decimal zone in 1..8 with one of the five
zone parameters and a valid value for it, or zone 0 with parameter
`mode` and a recognized mode name. -/
def validPut (zone param value : String) : Bool :=
  match goAtoi zone with
  | none => false
  | some zn =>
    if 1 ≤ zn ∧ zn ≤ 8 then
      validZonePV param value
    else if zn = 0 then
      decide (param = "mode") && (stringModeToRaw value).isSome
    else
      false

/-! ## Projections: `holdTime`, zone views, `getZonesConfig`, `getZNConfig` -/

/-- `holdTime(ht)`: `""` for zero, else `fmt.Sprintf("%d:%02d", ht/60, ht%60)`. -/
def holdTime (ht : Nat) : String :=
  if ht = 0 then "" else Nat.repr (ht / 60) ++ ":" ++ pad2 (ht % 60)

/-- The per-zone projection record `TStatZoneConfig`.  Fields the source
leaves at their Go zero value in a given construction stay at the model's
zero (`0`, `""`, `[]`). -/
structure TStatZoneConfig where
  ZoneNumber : Nat
  CurrentTemp : Nat
  CurrentHumidity : Nat
  TargetHumidity : Nat
  ZoneName : List Nat
  FanMode : String
  Hold : Bool
  Preset : String
  HeatSetpoint : Nat
  CoolSetpoint : Nat
  OvrdDuration : String
  OvrdDurationMins : Nat
  OutdoorTemp : Nat
  Mode : String
  Stage : Nat
  Action : String
  RawMode : Nat
deriving DecidableEq, Repr

structure TStatZonesConfig where
  Zones : List TStatZoneConfig
  OutdoorTemp : Nat
  Mode : String
  Stage : Nat
  Action : String
  RawMode : Nat
deriving DecidableEq, Repr

/-- The Go zero value of `TStatZoneConfig`. -/
def zeroZoneConfig : TStatZoneConfig where
  ZoneNumber := 0
  CurrentTemp := 0
  CurrentHumidity := 0
  TargetHumidity := 0
  ZoneName := []
  FanMode := ""
  Hold := false
  Preset := ""
  HeatSetpoint := 0
  CoolSetpoint := 0
  OvrdDuration := ""
  OvrdDurationMins := 0
  OutdoorTemp := 0
  Mode := ""
  Stage := 0
  Action := ""
  RawMode := 0

/-- The zone entry `getZonesConfig` builds for active zone index `zi`
(the literal of its loop body). -/
def mkZoneEntry (cfg : TStatZoneParams) (params : TStatCurrentParams) (zi : Nat) : TStatZoneConfig :=
  let holdz : Bool := decide (cfg.ZoneHold &&& (1 <<< zi) ≠ 0)
  { zeroZoneConfig with
    ZoneNumber := zi + 1
    CurrentTemp := params.ZCurrentTemp.getD zi 0
    CurrentHumidity := params.ZCurrentHumidity.getD zi 0
    FanMode := rawFanModeToString (cfg.ZFanMode.getD zi 0)
    Hold := holdz
    Preset := if holdz then "hold" else "none"
    HeatSetpoint := cfg.ZHeatSetpoint.getD zi 0
    CoolSetpoint := cfg.ZCoolSetpoint.getD zi 0
    OvrdDuration := holdTime (cfg.ZOvrdDuration.getD zi 0)
    OvrdDurationMins := cfg.ZOvrdDuration.getD zi 0
    ZoneName := goBytesTrim (cfg.ZName.getD zi []) [0x20, 0x00] }

/-- The activity test of `getZonesConfig`'s loop:
`params.ZCurrentTemp[zi] > 0 && params.ZCurrentTemp[zi] < 255`. -/
def zoneActive (params : TStatCurrentParams) (zi : Nat) : Bool :=
  0 < params.ZCurrentTemp.getD zi 0 && params.ZCurrentTemp.getD zi 0 < 255

/-- The compacted zone list of `getZonesConfig`: the loop writes active
zones into the next free slot of `zoneArr` and slices `[0:zc]`, i.e. it
keeps the active zones in index order. -/
def zoneList (cfg : TStatZoneParams) (params : TStatCurrentParams) : List TStatZoneConfig :=
  (List.range 8).filterMap
    (fun zi => if zoneActive params zi then some (mkZoneEntry cfg params zi) else none)

/-- The `TStatZonesConfig` assembled by `getZonesConfig` from decoded
tables. -/
def buildZonesConfig (cfg : TStatZoneParams) (params : TStatCurrentParams) : TStatZonesConfig where
  Zones := zoneList cfg params
  OutdoorTemp := params.OutdoorAirTemp
  Mode := rawModeToString (params.Mode &&& 0xf)
  Stage := params.Mode >>> 5
  Action := rawActionToString (params.Mode >>> 5)
  RawMode := params.Mode

/-- `getZonesConfig`: the two `ReadTable` results are passed in as
`Option`s (`none` = failed read); either failure short-circuits to
failure, mirroring the early returns. -/
def getZonesConfig (r1 : Option TStatZoneParams) (r2 : Option TStatCurrentParams) :
    Option TStatZonesConfig :=
  match r1 with
  | none => none
  | some cfg =>
    match r2 with
    | none => none
    | some params => some (buildZonesConfig cfg params)

/-- `getZNConfig(zi)`: single-zone projection; fails on `zi` outside 0..7
or on a failed read. -/
def getZNConfig (zi : Int) (r1 : Option TStatZoneParams) (r2 : Option TStatCurrentParams) :
    Option TStatZoneConfig :=
  if zi < 0 ∨ 7 < zi then none
  else
    match r1 with
    | none => none
    | some cfg =>
      match r2 with
      | none => none
      | some params =>
        let hold : Bool := decide (cfg.ZoneHold &&& (1 <<< zi.toNat) ≠ 0)
        some { zeroZoneConfig with
          CurrentTemp := params.ZCurrentTemp.getD zi.toNat 0
          CurrentHumidity := params.ZCurrentHumidity.getD zi.toNat 0
          OutdoorTemp := params.OutdoorAirTemp
          Mode := rawModeToString (params.Mode &&& 0xf)
          Stage := params.Mode >>> 5
          Action := rawActionToString (params.Mode >>> 5)
          FanMode := rawFanModeToString (cfg.ZFanMode.getD zi.toNat 0)
          Hold := hold
          Preset := if hold then "hold" else "none"
          HeatSetpoint := cfg.ZHeatSetpoint.getD zi.toNat 0
          CoolSetpoint := cfg.ZCoolSetpoint.getD zi.toNat 0
          OvrdDuration := holdTime (cfg.ZOvrdDuration.getD zi.toNat 0)
          OvrdDurationMins := cfg.ZOvrdDuration.getD zi.toNat 0
          ZoneName := goBytesTrim (cfg.ZName.getD zi.toNat []) [0x20, 0x00]
          TargetHumidity := cfg.ZTargetHumidity.getD zi.toNat 0
          RawMode := params.Mode }

/-! ## Snoop state records -/

structure AirHandler where
  BlowerRPM : Nat
  AirFlowCFM : Nat
  StaticPressure : ℚ
  HeatStage : Nat
  ElecHeat : Bool
  Action : String
deriving DecidableEq, Repr

structure HeatPump where
  CoilTemp : ℚ
  OutsideTemp : ℚ
  Stage : Nat
deriving DecidableEq, Repr

/-- An inbound bus frame as seen by a snoop callback: source address and
payload bytes. -/
structure InfinityFrame where
  src : Nat
  data : List Nat
deriving DecidableEq, Repr

/-! ## Cache updates -/

/-- A value written to the state cache (`cache.update`). -/
inductive CacheVal where
  | n (v : Nat)
  | s (v : String)
  | b (v : Bool)
  | q (v : ℚ)
  | zones (v : TStatZonesConfig)
  | hpv (v : HeatPump)
  | damper (v : List Nat)
deriving DecidableEq, Repr

/-! ## State poller (`statePoller`) -/

/-- The eight flat mirror updates the poller issues for one zone entry
(lines of the `for zi := range c1.Zones` loop). -/
def zoneUpdates (z : TStatZoneConfig) : List (String × CacheVal) :=
  let zp := "mqtt/infinitive/zone/" ++ Nat.repr z.ZoneNumber
  [ (zp ++ "/currentTemp", CacheVal.n z.CurrentTemp),
    (zp ++ "/humidity", CacheVal.n z.CurrentHumidity),
    (zp ++ "/coolSetpoint", CacheVal.n z.CoolSetpoint),
    (zp ++ "/heatSetpoint", CacheVal.n z.HeatSetpoint),
    (zp ++ "/fanMode", CacheVal.s z.FanMode),
    (zp ++ "/hold", CacheVal.b z.Hold),
    (zp ++ "/overrideDuration", CacheVal.s z.OvrdDuration),
    (zp ++ "/preset", CacheVal.s z.Preset) ]

/-- The final value of the poller's running `hum` variable
(`var hum uint8` overwritten by each zone of the loop). -/
def lastHum (zs : List TStatZoneConfig) : Nat :=
  zs.foldl (fun _ z => z.CurrentHumidity) 0

/-- One tick of `statePoller`: the cache updates it issues, in order.
On a failed `getZonesConfig` nothing is updated (the register-monitor
probe `getRawData` only logs and writes no cache key). -/
def pollerTickUpdates (r1 : Option TStatZoneParams) (r2 : Option TStatCurrentParams) :
    List (String × CacheVal) :=
  match getZonesConfig r1 r2 with
  | none => []
  | some c1 =>
    [("tstat", CacheVal.zones c1)]
    ++ (c1.Zones.map zoneUpdates).flatten
    ++ (if lastHum c1.Zones > 0 then [("mqtt/infinitive/humidity", CacheVal.n (lastHum c1.Zones))] else [])
    ++ [("mqtt/infinitive/outdoorTemp", CacheVal.n c1.OutdoorTemp),
        ("mqtt/infinitive/mode", CacheVal.s c1.Mode),
        ("mqtt/infinitive/rawMode", CacheVal.n c1.RawMode)]

/-! ## Snoop callbacks (`attachSnoops`) -/

/-- Heat-pump snoop (registered for sources `0x5000..0x51ff`): on prefix
`00 3E 01` decodes coil/outside temperature (`uint16/16`), on prefix
`00 3E 02` the stage; returns the new `HeatPump` and the cache updates
issued.  Out-of-range sources or other prefixes change nothing. -/
def heatPumpSnoop (frame : InfinityFrame) (hp : HeatPump) : HeatPump × List (String × CacheVal) :=
  if 0x5000 ≤ frame.src ∧ frame.src ≤ 0x51ff then
    let data := frame.data.drop 3
    if frame.data.take 3 = [0x00, 0x3e, 0x01] then
      let hp2 := { hp with
        CoilTemp := (goBigEndianUint16 (data.drop 2) : ℚ) / 16
        OutsideTemp := (goBigEndianUint16 data : ℚ) / 16 }
      (hp2, [("heatpump", CacheVal.hpv hp2),
             ("mqtt/infinitive/coilTemp", CacheVal.q hp2.CoilTemp),
             ("mqtt/infinitive/outsideTemp", CacheVal.q hp2.OutsideTemp)])
    else if frame.data.take 3 = [0x00, 0x3e, 0x02] then
      let hp2 := { hp with Stage := data.getD 0 0 >>> 1 }
      (hp2, [("heatpump", CacheVal.hpv hp2),
             ("mqtt/infinitive/acStage", CacheVal.n hp2.Stage)])
    else (hp, [])
  else (hp, [])

/-- Blower-RPM decode of the earlier revision of the air-handler snoop:
`binary.BigEndian.Uint16(data[1:5])`. -/
def blowerRPMEarly (data : List Nat) : Nat :=
  goBigEndianUint16 ((data.drop 1).take 4)

/-- Blower-RPM decode of the later revision of the air-handler snoop:
`binary.BigEndian.Uint16(data[1:3])`. -/
def blowerRPMLate (data : List Nat) : Nat :=
  goBigEndianUint16 ((data.drop 1).take 2)

/-- The damper mirror key `fmt.Sprintf("mqtt/infinitive/zone/%d/damperPos", zi+1)`. -/
def damperKey (n : Nat) : String :=
  "mqtt/infinitive/zone/" ++ Nat.repr n ++ "/damperPos"

/-- One step of the damper snoop's zone loop: skip byte `0xFF`, otherwise
store the byte and mirror it as percent. -/
def damperStep (data : List Nat) (acc : List Nat × List (String × CacheVal)) (zi : Nat) :
    List Nat × List (String × CacheVal) :=
  if data.getD zi 0 ≠ 0xff then
    (acc.1.set zi (data.getD zi 0),
     acc.2 ++ [(damperKey (zi + 1), CacheVal.n (data.getD zi 0 * 100 / 15))])
  else acc

/-- Zone-damper snoop (registered for sources `0x6000..0x61ff`): on
prefix `00 03 19` runs the per-zone loop and finally stores the whole
8-entry damper array under `"damperpos"`. -/
def damperSnoop (frame : InfinityFrame) (dp : List Nat) : List Nat × List (String × CacheVal) :=
  if 0x6000 ≤ frame.src ∧ frame.src ≤ 0x61ff then
    let data := frame.data.drop 3
    if frame.data.take 3 = [0x00, 0x03, 0x19] then
      let r := (List.range 8).foldl (damperStep data) (dp, [])
      (r.1, r.2 ++ [("damperpos", CacheVal.damper r.1)])
    else (dp, [])
  else (dp, [])

/-! ## List helper lemmas -/

theorem getD_set (l : List Nat) : ∀ (i j v : Nat),
    (l.set i v).getD j 0 = if i = j ∧ i < l.length then v else l.getD j 0 := by
  induction l with
  | nil => intro i j v; simp
  | cons a t ih =>
    intro i j v
    cases i with
    | zero =>
      cases j with
      | zero => simp
      | succ k => simp
    | succ m =>
      cases j with
      | zero => simp
      | succ k =>
        simp only [List.set_cons_succ, List.getD_cons_succ, ih m k v, List.length_cons]
        by_cases h : m = k ∧ m < t.length
        · rw [if_pos h, if_pos (by omega)]
        · rw [if_neg h, if_neg (by omega)]

theorem getD_drop (l : List Nat) : ∀ (n i : Nat), (l.drop n).getD i 0 = l.getD (n + i) 0 := by
  induction l with
  | nil => intro n i; simp
  | cons a t ih =>
    intro n i
    cases n with
    | zero => simp
    | succ m =>
      simp only [List.drop_succ_cons, Nat.succ_add, List.getD_cons_succ]
      exact ih m i

theorem getD_take (l : List Nat) : ∀ (n i : Nat), i < n → (l.take n).getD i 0 = l.getD i 0 := by
  induction l with
  | nil => intro n i _; simp
  | cons a t ih =>
    intro n i hi
    cases n with
    | zero => omega
    | succ m =>
      cases i with
      | zero => simp
      | succ k =>
        simp only [List.take_succ_cons, List.getD_cons_succ]
        exact ih m k (by omega)

theorem filterMap_ite {α β : Type} (p : α → Bool) (f : α → β) (l : List α) :
    (l.filterMap (fun a => if p a then some (f a) else none)) = (l.filter p).map f := by
  induction l with
  | nil => rfl
  | cons a t ih =>
    by_cases h : p a <;> simp [List.filterMap_cons, List.filter_cons, h, ih]

/-! ## Claim theorems -/

/-- C1: for a zone string parsing to 1..8 and a recognized
parameter/value pair, `putConfig` issues exactly one `WriteTableZ` with
0-based zone index `zn-1`, the write mask determined by the parameter
(`fanMode→0x01`, `hold`/`preset`→`0x02`, `heatSetpoint→0x04`,
`coolSetpoint→0x08`), the parsed value placed in the addressed zone's
slot, `ZoneHold = 1 <<< (zn-1)` when asserting hold and `0` when
clearing, and returns success. -/
theorem putConfig_zone_write (zone : String) (zn : Int) (value : String)
    (hz : goAtoi zone = some zn) (h1 : 1 ≤ zn) (h8 : zn ≤ 8) :
    (∀ m, stringFanModeToRaw value = some m →
      ∃ p, putConfig zone "fanMode" value = (true, [WriteAction.writeZ p (zn - 1).toNat 0x01]) ∧
        p.ZFanMode.getD (zn - 1).toNat 0 = m ∧ p.ZoneHold = 0) ∧
    (∀ v, goParseUint8 value = some v →
      ∃ p, putConfig zone "heatSetpoint" value = (true, [WriteAction.writeZ p (zn - 1).toNat 0x04]) ∧
        p.ZHeatSetpoint.getD (zn - 1).toNat 0 = v ∧ p.ZoneHold = 0) ∧
    (∀ v, goParseUint8 value = some v →
      ∃ p, putConfig zone "coolSetpoint" value = (true, [WriteAction.writeZ p (zn - 1).toNat 0x08]) ∧
        p.ZCoolSetpoint.getD (zn - 1).toNat 0 = v ∧ p.ZoneHold = 0) ∧
    (value = "true" →
      ∃ p, putConfig zone "hold" value = (true, [WriteAction.writeZ p (zn - 1).toNat 0x02]) ∧
        p.ZoneHold = 1 <<< (zn - 1).toNat) ∧
    (value = "false" →
      ∃ p, putConfig zone "hold" value = (true, [WriteAction.writeZ p (zn - 1).toNat 0x02]) ∧
        p.ZoneHold = 0) ∧
    (value = "hold" →
      ∃ p, putConfig zone "preset" value = (true, [WriteAction.writeZ p (zn - 1).toNat 0x02]) ∧
        p.ZoneHold = 1 <<< (zn - 1).toNat) ∧
    (value = "none" →
      ∃ p, putConfig zone "preset" value = (true, [WriteAction.writeZ p (zn - 1).toNat 0x02]) ∧
        p.ZoneHold = 0) := by
  have hr : 1 ≤ zn ∧ zn ≤ 8 := ⟨h1, h8⟩
  have hlt : (zn - 1).toNat < 8 := by omega
  refine ⟨?_, ?_, ?_, ?_, ?_, ?_, ?_⟩
  · intro m hm
    refine ⟨{ zeroZoneParams with
        ZFanMode := zeroZoneParams.ZFanMode.set (zn - 1).toNat m }, ?_, ?_, rfl⟩
    · unfold putConfig
      rw [hz]
      simp only [if_pos hr]
      unfold putConfigZ
      simp [hm]
    · rw [getD_set]
      rw [if_pos ⟨rfl, show _ < _ by simp only [zeroZoneParams, List.length_replicate]; omega⟩]
  · intro v hv
    refine ⟨{ zeroZoneParams with
        ZHeatSetpoint := zeroZoneParams.ZHeatSetpoint.set (zn - 1).toNat v }, ?_, ?_, rfl⟩
    · unfold putConfig
      rw [hz]
      simp only [if_pos hr]
      unfold putConfigZ
      simp [hv]
    · rw [getD_set]
      rw [if_pos ⟨rfl, show _ < _ by simp only [zeroZoneParams, List.length_replicate]; omega⟩]
  · intro v hv
    refine ⟨{ zeroZoneParams with
        ZCoolSetpoint := zeroZoneParams.ZCoolSetpoint.set (zn - 1).toNat v }, ?_, ?_, rfl⟩
    · unfold putConfig
      rw [hz]
      simp only [if_pos hr]
      unfold putConfigZ
      simp [hv]
    · rw [getD_set]
      rw [if_pos ⟨rfl, show _ < _ by simp only [zeroZoneParams, List.length_replicate]; omega⟩]
  · intro hv
    subst hv
    refine ⟨{ zeroZoneParams with ZoneHold := 1 <<< (zn - 1).toNat }, ?_, rfl⟩
    unfold putConfig
    rw [hz]
    simp only [if_pos hr]
    unfold putConfigZ
    simp
  · intro hv
    subst hv
    refine ⟨zeroZoneParams, ?_, rfl⟩
    unfold putConfig
    rw [hz]
    simp only [if_pos hr]
    unfold putConfigZ
    simp
  · intro hv
    subst hv
    refine ⟨{ zeroZoneParams with ZoneHold := 1 <<< (zn - 1).toNat }, ?_, rfl⟩
    unfold putConfig
    rw [hz]
    simp only [if_pos hr]
    unfold putConfigZ
    simp
  · intro hv
    subst hv
    refine ⟨zeroZoneParams, ?_, rfl⟩
    unfold putConfig
    rw [hz]
    simp only [if_pos hr]
    unfold putConfigZ
    simp

/-- Witness for C1 at the spec's concrete scenario:
`zone="2", param="heatSetpoint", value="68"` yields exactly one zoned
write with mask `0x04`, zone index `1`, heat-setpoint byte `68`. -/
theorem putConfig_zone_write_witness :
    ∃ p, putConfig "2" "heatSetpoint" "68" =
        (true, [WriteAction.writeZ p ((2 : Int) - 1).toNat 0x04]) ∧
      p.ZHeatSetpoint.getD ((2 : Int) - 1).toNat 0 = 68 ∧ p.ZoneHold = 0 :=
  (putConfig_zone_write "2" 2 "68" (by decide) (by decide) (by decide)).2.1 68 (by decide)

/-- If the zone arm's parameter/value pair is unrecognized, `putConfigZ`
fails. -/
theorem putConfigZ_eq_none (zi : Nat) (param value : String)
    (h : validZonePV param value = false) : putConfigZ zi param value = none := by
  unfold validZonePV at h
  unfold putConfigZ
  by_cases h1 : param = "fanMode"
  · rw [if_pos h1]
    cases hm : stringFanModeToRaw value with
    | none => rfl
    | some m => subst h1; simp [hm] at h
  · rw [if_neg h1]
    by_cases h2 : param = "coolSetpoint"
    · rw [if_pos h2]
      cases hv : goParseUint8 value with
      | none => rfl
      | some v => subst h2; simp [hv] at h
    · rw [if_neg h2]
      by_cases h3 : param = "heatSetpoint"
      · rw [if_pos h3]
        cases hv : goParseUint8 value with
        | none => rfl
        | some v => subst h3; simp [hv] at h
      · rw [if_neg h3]
        by_cases h4 : param = "hold"
        · rw [if_pos h4]
          subst h4
          by_cases hv1 : value = "true"
          · simp [hv1] at h
          · rw [if_neg hv1]
            by_cases hv2 : value = "false"
            · simp [hv2] at h
            · rw [if_neg hv2]
        · rw [if_neg h4]
          by_cases h5 : param = "preset"
          · rw [if_pos h5]
            subst h5
            by_cases hv1 : value = "hold"
            · simp [hv1] at h
            · rw [if_neg hv1]
              by_cases hv2 : value = "none"
              · simp [hv2] at h
              · rw [if_neg hv2]
          · rw [if_neg h5]

/-- C2: on any unrecognized zone/parameter/value combination `putConfig`
returns failure and issues no write at all. -/
theorem putConfig_invalid_no_write (zone param value : String)
    (h : validPut zone param value = false) :
    putConfig zone param value = (false, []) := by
  unfold validPut at h
  unfold putConfig
  cases hz : goAtoi zone with
  | none => rfl
  | some zn =>
    rw [hz] at h
    simp only at h ⊢
    by_cases hr : 1 ≤ zn ∧ zn ≤ 8
    · rw [if_pos hr] at h ⊢
      rw [putConfigZ_eq_none _ _ _ h]
    · rw [if_neg hr] at h ⊢
      by_cases h0 : zn = 0
      · rw [if_pos h0] at h ⊢
        by_cases hm : param = "mode"
        · rw [if_pos hm]
          subst hm
          cases hs : stringModeToRaw value with
          | none => rfl
          | some m => simp [hs] at h
        · rw [if_neg hm]
      · rw [if_neg h0]

/-- Witness for C2 at the spec's rejected-write scenario:
`zone="9", param="fanMode", value="low"` fails with no write. -/
theorem putConfig_invalid_no_write_witness :
    validPut "9" "fanMode" "low" = false ∧
      putConfig "9" "fanMode" "low" = (false, []) :=
  ⟨by decide, putConfig_invalid_no_write "9" "fanMode" "low" (by decide)⟩

theorem mkZoneEntry_ZoneNumber (cfg : TStatZoneParams) (params : TStatCurrentParams) (zi : Nat) :
    (mkZoneEntry cfg params zi).ZoneNumber = zi + 1 := rfl

theorem zoneList_eq_filter (cfg : TStatZoneParams) (params : TStatCurrentParams) :
    zoneList cfg params = ((List.range 8).filter (zoneActive params)).map (mkZoneEntry cfg params) :=
  filterMap_ite _ _ _

theorem mem_zoneList (cfg : TStatZoneParams) (params : TStatCurrentParams) (z : TStatZoneConfig) :
    z ∈ zoneList cfg params ↔
      ∃ zi, zi < 8 ∧ zoneActive params zi = true ∧ z = mkZoneEntry cfg params zi := by
  rw [zoneList_eq_filter]
  simp only [List.mem_map, List.mem_filter, List.mem_range]
  constructor
  · rintro ⟨zi, ⟨h8, hact⟩, rfl⟩
    exact ⟨zi, h8, hact, rfl⟩
  · rintro ⟨zi, h8, hact, rfl⟩
    exact ⟨zi, ⟨h8, hact⟩, rfl⟩

/-- C3: the compacted zone list of `getZonesConfig` has an entry for zone
index `zi` exactly when the zone's current temperature is strictly
between 0 and 255; the list is in increasing zone order; and each entry
is the projection of its original index, carrying the 1-based zone
number `zi + 1`. -/
theorem getZonesConfig_zone_compaction (cfg : TStatZoneParams) (params : TStatCurrentParams) :
    (∀ zi : Nat, zi < 8 →
      ((∃ z ∈ (buildZonesConfig cfg params).Zones, z.ZoneNumber = zi + 1) ↔
        (0 < params.ZCurrentTemp.getD zi 0 ∧ params.ZCurrentTemp.getD zi 0 < 255))) ∧
    ((buildZonesConfig cfg params).Zones.map TStatZoneConfig.ZoneNumber).Pairwise (· < ·) ∧
    (∀ z ∈ (buildZonesConfig cfg params).Zones, ∃ zi : Nat, zi < 8 ∧
      z = mkZoneEntry cfg params zi ∧ z.ZoneNumber = zi + 1 ∧
      0 < params.ZCurrentTemp.getD zi 0 ∧ params.ZCurrentTemp.getD zi 0 < 255) := by
  have hZ : (buildZonesConfig cfg params).Zones = zoneList cfg params := rfl
  refine ⟨?_, ?_, ?_⟩
  · intro zi hzi
    rw [hZ]
    constructor
    · rintro ⟨z, hz, hnum⟩
      obtain ⟨zj, hj8, hact, rfl⟩ := (mem_zoneList cfg params z).mp hz
      rw [mkZoneEntry_ZoneNumber] at hnum
      have hji : zj = zi := by omega
      subst hji
      unfold zoneActive at hact
      simp only [Bool.and_eq_true, decide_eq_true_eq] at hact
      exact hact
    · intro hact
      refine ⟨mkZoneEntry cfg params zi, ?_, mkZoneEntry_ZoneNumber cfg params zi⟩
      refine (mem_zoneList cfg params _).mpr ⟨zi, hzi, ?_, rfl⟩
      unfold zoneActive
      simp only [Bool.and_eq_true, decide_eq_true_eq]
      exact hact
  · rw [hZ, zoneList_eq_filter, List.map_map]
    have hfun : TStatZoneConfig.ZoneNumber ∘ mkZoneEntry cfg params = fun zi => zi + 1 :=
      funext fun zi => mkZoneEntry_ZoneNumber cfg params zi
    rw [hfun]
    exact List.Pairwise.map _ (fun a b h => Nat.succ_lt_succ h)
      ((List.pairwise_lt_range 8).filter (zoneActive params))
  · intro z hz
    rw [hZ] at hz
    obtain ⟨zi, h8, hact, rfl⟩ := (mem_zoneList cfg params z).mp hz
    unfold zoneActive at hact
    simp only [Bool.and_eq_true, decide_eq_true_eq] at hact
    exact ⟨zi, h8, rfl, mkZoneEntry_ZoneNumber cfg params zi, hact.1, hact.2⟩

/-- Sample decoded tables: zone 1 active at 70°, name `" A"` padded with
NULs; all other zones inactive. -/
def rawNameEx : List Nat := [0x20, 65] ++ List.replicate 10 0

def cfgEx : TStatZoneParams :=
  { zeroZoneParams with
    ZName := (List.replicate 8 (List.replicate 12 0)).set 0 rawNameEx }

def paramsEx : TStatCurrentParams where
  ZCurrentTemp := [70, 0, 0, 0, 0, 0, 0, 0]
  ZCurrentHumidity := List.replicate 8 0
  OutdoorAirTemp := 41
  Mode := 2

/-- Witness for C3: in the sample tables, zone 1 is present (its current
temperature 70 lies in `(0, 255)`). -/
theorem getZonesConfig_zone_compaction_witness :
    ∃ z ∈ (buildZonesConfig cfgEx paramsEx).Zones, z.ZoneNumber = 0 + 1 :=
  ((getZonesConfig_zone_compaction cfgEx paramsEx).1 0 (by decide)).mpr (by decide)

/-- C7: a poller tick whose `getZonesConfig` fails (either table read
failed) issues no cache update at all; a failed read makes
`getZonesConfig` fail. -/
theorem poller_skips_failed_tick (r1 : Option TStatZoneParams) (r2 : Option TStatCurrentParams) :
    (getZonesConfig r1 r2 = none → pollerTickUpdates r1 r2 = []) ∧
    ((r1 = none ∨ r2 = none) → getZonesConfig r1 r2 = none) := by
  constructor
  · intro h
    unfold pollerTickUpdates
    rw [h]
  · rintro (h | h)
    · subst h; rfl
    · subst h; cases r1 <;> rfl

/-- Witness for C7: a tick with a failed `TStatCurrentParams` read
updates nothing. -/
theorem poller_skips_failed_tick_witness :
    pollerTickUpdates (some zeroZoneParams) none = [] :=
  (poller_skips_failed_tick (some zeroZoneParams) none).1
    ((poller_skips_failed_tick (some zeroZoneParams) none).2 (Or.inr rfl))

/-- C9: `holdTime 0 = ""`, and for positive minutes the result is the
plain decimal of `m / 60` (`Nat.repr`, which never has a leading zero),
a colon, and `m % 60` zero-padded to exactly two digits; in particular
`holdTime 75 = "1:15"` and `holdTime 600 = "10:00"`. -/
theorem holdTime_format :
    holdTime 0 = "" ∧ holdTime 75 = "1:15" ∧ holdTime 600 = "10:00" ∧
    (∀ m : Nat, 0 < m →
      holdTime m = Nat.repr (m / 60) ++ ":" ++ pad2 (m % 60) ∧
      (pad2 (m % 60)).length = 2) := by
  refine ⟨by decide, by decide, by decide, ?_⟩
  intro m hm
  constructor
  · unfold holdTime
    rw [if_neg (by omega)]
  · have h60 : m % 60 < 60 := Nat.mod_lt _ (by norm_num)
    have hlen : ∀ n, n < 60 → (pad2 n).length = 2 := by decide
    exact hlen _ h60

/-- Witness for C9 at `m = 125`: one hour-digit, zero-padded minutes. -/
theorem holdTime_format_witness : holdTime 125 = "2:05" := by
  rw [(holdTime_format.2.2.2 125 (by norm_num)).1]
  decide

/-- C4: a heat-pump snoop frame (source `0x5000..0x51ff`) with payload
prefix `00 3E 01` sets `OutsideTemp` to the big-endian 16-bit value of
the two bytes after the prefix divided by 16 and `CoilTemp` to the
big-endian value of the next two bytes divided by 16, and caches the new
`HeatPump`; with prefix `00 3E 02` it sets `Stage` to the byte after the
prefix shifted right by 1. -/
theorem heatPumpSnoop_decode (frame : InfinityFrame) (hp : HeatPump)
    (hs1 : 0x5000 ≤ frame.src) (hs2 : frame.src ≤ 0x51ff)
    (_hlen7 : 7 ≤ frame.data.length) :
    (frame.data.take 3 = [0x00, 0x3e, 0x01] →
      (heatPumpSnoop frame hp).1.OutsideTemp =
          ((256 * frame.data.getD 3 0 + frame.data.getD 4 0 : Nat) : ℚ) / 16 ∧
      (heatPumpSnoop frame hp).1.CoilTemp =
          ((256 * frame.data.getD 5 0 + frame.data.getD 6 0 : Nat) : ℚ) / 16 ∧
      ("heatpump", CacheVal.hpv (heatPumpSnoop frame hp).1) ∈ (heatPumpSnoop frame hp).2) ∧
    (frame.data.take 3 = [0x00, 0x3e, 0x02] →
      (heatPumpSnoop frame hp).1.Stage = frame.data.getD 3 0 >>> 1 ∧
      ("heatpump", CacheVal.hpv (heatPumpSnoop frame hp).1) ∈ (heatPumpSnoop frame hp).2) := by
  constructor
  · intro hpfx
    unfold heatPumpSnoop
    rw [if_pos ⟨hs1, hs2⟩, if_pos hpfx]
    refine ⟨?_, ?_, by simp⟩
    · show ((goBigEndianUint16 (frame.data.drop 3) : Nat) : ℚ) / 16 = _
      unfold goBigEndianUint16
      rw [getD_drop, getD_drop]
    · show ((goBigEndianUint16 ((frame.data.drop 3).drop 2) : Nat) : ℚ) / 16 = _
      unfold goBigEndianUint16
      rw [List.drop_drop, getD_drop, getD_drop]
  · intro hpfx
    unfold heatPumpSnoop
    rw [if_pos ⟨hs1, hs2⟩, if_neg (by rw [hpfx]; decide), if_pos hpfx]
    refine ⟨?_, by simp⟩
    show (frame.data.drop 3).getD 0 0 >>> 1 = _
    rw [getD_drop]

/-- The spec's heat-pump snoop scenario: an air-source frame with data
`00 3E 01 01 20 00 F0`. -/
def hpFrameEx : InfinityFrame where
  src := 0x5001
  data := [0x00, 0x3e, 0x01, 0x01, 0x20, 0x00, 0xf0]

/-- Witness for C4 on the spec's scenario frame: `OutsideTemp = 18`,
`CoilTemp = 15` (values from `/16`). -/
theorem heatPumpSnoop_decode_witness :
    (heatPumpSnoop hpFrameEx ⟨0, 0, 0⟩).1.OutsideTemp = 18 ∧
    (heatPumpSnoop hpFrameEx ⟨0, 0, 0⟩).1.CoilTemp = 15 := by
  have h := (heatPumpSnoop_decode hpFrameEx ⟨0, 0, 0⟩ (by decide) (by decide) (by decide)).1
    (by decide)
  refine ⟨?_, ?_⟩
  · rw [h.1]
    norm_num [hpFrameEx]
  · rw [h.2.1]
    norm_num [hpFrameEx]

/-- C6: with at least 5 payload bytes after the prefix, the earlier
revision's blower-RPM decode over `data[1:5]` and the later revision's
over `data[1:3]` agree, both reading the big-endian 16-bit integer in
payload bytes 1–2 (`binary.BigEndian.Uint16` only ever reads the first
two bytes of its slice). -/
theorem blowerRPM_slice_equiv (data : List Nat) (_hlen5 : 5 ≤ data.length) :
    blowerRPMEarly data = blowerRPMLate data ∧
    blowerRPMLate data = 256 * data.getD 1 0 + data.getD 2 0 := by
  have h4 : ∀ i : Nat, i < 4 → ((data.drop 1).take 4).getD i 0 = data.getD (1 + i) 0 := by
    intro i hi
    rw [getD_take _ _ _ hi, getD_drop]
  have h2 : ∀ i : Nat, i < 2 → ((data.drop 1).take 2).getD i 0 = data.getD (1 + i) 0 := by
    intro i hi
    rw [getD_take _ _ _ hi, getD_drop]
  constructor
  · unfold blowerRPMEarly blowerRPMLate goBigEndianUint16
    rw [h4 0 (by norm_num), h4 1 (by norm_num), h2 0 (by norm_num), h2 1 (by norm_num)]
  · unfold blowerRPMLate goBigEndianUint16
    rw [h2 0 (by norm_num), h2 1 (by norm_num)]

/-- Witness for C6: payload `06 12 34 00 05` decodes to `0x1234` under
both revisions. -/
theorem blowerRPM_slice_equiv_witness :
    blowerRPMEarly [0x06, 0x12, 0x34, 0x00, 0x05] = blowerRPMLate [0x06, 0x12, 0x34, 0x00, 0x05] ∧
    blowerRPMLate [0x06, 0x12, 0x34, 0x00, 0x05] =
      256 * [0x06, 0x12, 0x34, 0x00, 0x05].getD 1 0 + [0x06, 0x12, 0x34, 0x00, 0x05].getD 2 0 :=
  blowerRPM_slice_equiv [0x06, 0x12, 0x34, 0x00, 0x05] (by norm_num)

/-- The update list accumulated by the damper snoop's zone loop: one
mirror entry per non-`0xFF` zone byte, in zone order. -/
theorem damperStep_snd (data : List Nat) : ∀ (is : List Nat) (dp0 : List Nat)
    (acc : List (String × CacheVal)),
    (is.foldl (damperStep data) (dp0, acc)).2 =
      acc ++ is.filterMap (fun i =>
        if data.getD i 0 ≠ 0xff then
          some (damperKey (i + 1), CacheVal.n (data.getD i 0 * 100 / 15))
        else none) := by
  intro is
  induction is with
  | nil => intro dp0 acc; simp
  | cons i rest ih =>
    intro dp0 acc
    by_cases h : data.getD i 0 ≠ 0xff
    · rw [List.foldl_cons,
        show damperStep data (dp0, acc) i =
          (dp0.set i (data.getD i 0),
           acc ++ [(damperKey (i + 1), CacheVal.n (data.getD i 0 * 100 / 15))]) from by
            rw [damperStep, if_pos h],
        ih, List.filterMap_cons, if_pos h]
      rw [List.append_assoc]
      rfl
    · rw [List.foldl_cons,
        show damperStep data (dp0, acc) i = (dp0, acc) from by rw [damperStep, if_neg h],
        ih, List.filterMap_cons, if_neg h]

/-- The damper array after the zone loop, read at `j`: zone `j` has been
overwritten with its frame byte exactly when `j` was visited and the
byte is not `0xFF`. -/
theorem damperStep_fst_getD (data : List Nat) : ∀ (is : List Nat) (dp0 : List Nat)
    (acc : List (String × CacheVal)) (j : Nat), j < dp0.length →
    ((is.foldl (damperStep data) (dp0, acc)).1).getD j 0 =
      if j ∈ is ∧ data.getD j 0 ≠ 0xff then data.getD j 0 else dp0.getD j 0 := by
  intro is
  induction is with
  | nil => intro dp0 acc j hj; simp
  | cons i rest ih =>
    intro dp0 acc j hj
    by_cases h : data.getD i 0 ≠ 0xff
    · rw [List.foldl_cons,
        show damperStep data (dp0, acc) i =
          (dp0.set i (data.getD i 0),
           acc ++ [(damperKey (i + 1), CacheVal.n (data.getD i 0 * 100 / 15))]) from by
            rw [damperStep, if_pos h],
        ih _ _ j (by rw [List.length_set]; exact hj), getD_set]
      by_cases hji : i = j
      · rw [if_pos (show j ∈ i :: rest ∧ data.getD j 0 ≠ 0xff from
            ⟨List.mem_cons.mpr (Or.inl hji.symm), hji ▸ h⟩)]
        by_cases hm : j ∈ rest ∧ data.getD j 0 ≠ 0xff
        · rw [if_pos hm]
        · rw [if_neg hm, if_pos (show i = j ∧ i < dp0.length from ⟨hji, by omega⟩), hji]
      · rw [if_neg (show ¬(i = j ∧ i < dp0.length) from fun hc => hji hc.1)]
        by_cases hm : j ∈ rest ∧ data.getD j 0 ≠ 0xff
        · rw [if_pos hm, if_pos (show j ∈ i :: rest ∧ data.getD j 0 ≠ 0xff from
              ⟨List.mem_cons_of_mem i hm.1, hm.2⟩)]
        · rw [if_neg hm, if_neg (show ¬(j ∈ i :: rest ∧ data.getD j 0 ≠ 0xff) from
              fun hc => hm ⟨(List.mem_cons.mp hc.1).resolve_left (fun he => hji he.symm), hc.2⟩)]
    · rw [List.foldl_cons,
        show damperStep data (dp0, acc) i = (dp0, acc) from by rw [damperStep, if_neg h],
        ih _ _ j hj]
      push_neg at h
      by_cases hm : j ∈ rest ∧ data.getD j 0 ≠ 0xff
      · rw [if_pos hm, if_pos ⟨List.mem_cons_of_mem i hm.1, hm.2⟩]
      · rw [if_neg hm]
        rw [if_neg]
        rintro ⟨hmem, hc⟩
        rcases List.mem_cons.mp hmem with hji | hjr
        · subst hji; exact hc h
        · exact hm ⟨hjr, hc⟩

/-- The damper mirror keys of zones 1..8 are pairwise distinct. -/
theorem damperKey_inj : ∀ i, i < 9 → ∀ j, j < 9 → damperKey i = damperKey j → i = j := by decide

theorem damperKey_ne_damperpos : ∀ i, i < 9 → damperKey i ≠ "damperpos" := by decide

/-- C5: a zone-damper snoop frame (source `0x6000..0x61ff`, prefix
`00 03 19`): a per-zone byte `0xFF` leaves the cached `DamperPos[zi]`
unchanged and writes no mirror key for that zone; any other byte is
stored in `DamperPos[zi]` and mirrored under
`mqtt/infinitive/zone/<zi+1>/damperPos` as `value * 100 / 15`. -/
theorem damperSnoop_zones (frame : InfinityFrame) (dp : List Nat) (zi : Nat)
    (hs1 : 0x6000 ≤ frame.src) (hs2 : frame.src ≤ 0x61ff)
    (hpfx : frame.data.take 3 = [0x00, 0x03, 0x19])
    (_hdlen : 11 ≤ frame.data.length) (hlen : dp.length = 8) (hzi : zi < 8) :
    (frame.data.getD (3 + zi) 0 = 0xff →
      (damperSnoop frame dp).1.getD zi 0 = dp.getD zi 0 ∧
      damperKey (zi + 1) ∉ ((damperSnoop frame dp).2.map Prod.fst)) ∧
    (frame.data.getD (3 + zi) 0 ≠ 0xff →
      (damperSnoop frame dp).1.getD zi 0 = frame.data.getD (3 + zi) 0 ∧
      (damperKey (zi + 1), CacheVal.n (frame.data.getD (3 + zi) 0 * 100 / 15))
        ∈ (damperSnoop frame dp).2) := by
  have hdata : ∀ i : Nat, (frame.data.drop 3).getD i 0 = frame.data.getD (3 + i) 0 :=
    fun i => getD_drop _ 3 i
  unfold damperSnoop
  rw [if_pos ⟨hs1, hs2⟩, if_pos hpfx]
  dsimp only
  constructor
  · intro hff
    constructor
    · rw [damperStep_fst_getD _ _ _ _ zi (by omega)]
      rw [if_neg]
      rintro ⟨_, hc⟩
      exact hc ((hdata zi).trans hff)
    · rw [damperStep_snd, List.nil_append, List.map_append]
      intro hmem
      rcases List.mem_append.mp hmem with hmem | hmem
      · obtain ⟨kv, hkv, hfst⟩ := List.mem_map.mp hmem
        obtain ⟨i, hi, hemit⟩ := List.mem_filterMap.mp hkv
        by_cases hb : (frame.data.drop 3).getD i 0 ≠ 0xff
        · rw [if_pos hb] at hemit
          have hk : damperKey (i + 1) = damperKey (zi + 1) := by
            rw [← hfst, ← Option.some.inj hemit]
          have hiz : i + 1 = zi + 1 :=
            damperKey_inj (i + 1) (by rw [List.mem_range] at hi; omega) (zi + 1) (by omega) hk
          have hizi : i = zi := by omega
          rw [hizi] at hb
          exact hb ((hdata zi).trans hff)
        · rw [if_neg hb] at hemit
          exact Option.noConfusion hemit
      · rw [List.map_cons, List.map_nil] at hmem
        rcases List.mem_cons.mp hmem with hlast | hnil
        · exact damperKey_ne_damperpos (zi + 1) (by omega) hlast
        · exact List.not_mem_nil _ hnil
  · intro hb
    constructor
    · rw [damperStep_fst_getD _ _ _ _ zi (by omega)]
      rw [if_pos ⟨List.mem_range.mpr hzi, fun hc => hb ((hdata zi).symm.trans hc)⟩]
      exact hdata zi
    · apply List.mem_append_left
      rw [damperStep_snd, List.nil_append]
      apply List.mem_filterMap.mpr
      refine ⟨zi, List.mem_range.mpr hzi, ?_⟩
      rw [if_pos (show (frame.data.drop 3).getD zi 0 ≠ 0xff from
            fun hc => hb ((hdata zi).symm.trans hc)),
          hdata zi]

/-- Witness for C5: a frame with damper bytes
`0F FF 00 FF FF FF FF FF` updates zone 1 to 15 (mirrored as 100), zone 3
to 0 (mirrored as 0) and leaves zone 2 (byte `0xFF`) untouched. -/
theorem damperSnoop_zones_witness :
    (damperSnoop ⟨0x6001, [0x00, 0x03, 0x19, 0x0f, 0xff, 0x00, 0xff, 0xff, 0xff, 0xff, 0xff]⟩
        [7, 7, 7, 7, 7, 7, 7, 7]).1.getD 1 0 = 7 ∧
    (damperKey 1, CacheVal.n 100) ∈
      (damperSnoop ⟨0x6001, [0x00, 0x03, 0x19, 0x0f, 0xff, 0x00, 0xff, 0xff, 0xff, 0xff, 0xff]⟩
        [7, 7, 7, 7, 7, 7, 7, 7]).2 := by
  have h1 := (damperSnoop_zones
    ⟨0x6001, [0x00, 0x03, 0x19, 0x0f, 0xff, 0x00, 0xff, 0xff, 0xff, 0xff, 0xff]⟩
    [7, 7, 7, 7, 7, 7, 7, 7] 1 (by decide) (by decide) (by decide) (by decide) (by decide)
    (by decide)).1 (by decide)
  have h0 := (damperSnoop_zones
    ⟨0x6001, [0x00, 0x03, 0x19, 0x0f, 0xff, 0x00, 0xff, 0xff, 0xff, 0xff, 0xff]⟩
    [7, 7, 7, 7, 7, 7, 7, 7] 0 (by decide) (by decide) (by decide) (by decide) (by decide)
    (by decide)).2 (by decide)
  exact ⟨h1.1, h0.2⟩

/-- What claim C8 asserts the projections compute: only the *trailing*
space/NUL bytes removed. -/
def trimTrailingSpaceNul (s : List Nat) : List Nat :=
  (s.reverse.dropWhile (fun b => decide (b = 0x20) || decide (b = 0))).reverse

/-- C8 counterexample: the raw 12-byte name `20 41 00 … 00` (leading
space, `"A"`, NUL padding).  `bytes.Trim` removes the *leading* space as
well, so the projected `ZoneName` is `"A"`, not the `" A"` the
trailing-only claim predicts — in both `getZonesConfig` and
`getZNConfig`. -/
theorem zoneName_trim_cex :
    ((buildZonesConfig cfgEx paramsEx).Zones.getD 0 zeroZoneConfig).ZoneName ≠
      trimTrailingSpaceNul rawNameEx ∧
    ((buildZonesConfig cfgEx paramsEx).Zones.getD 0 zeroZoneConfig).ZoneName = [65] ∧
    trimTrailingSpaceNul rawNameEx = [0x20, 65] ∧
    (getZNConfig 0 (some cfgEx) (some paramsEx)).map TStatZoneConfig.ZoneName = some [65] := by
  decide

theorem head?_dropWhile_false {p : Nat → Bool} (l : List Nat) (b : Nat)
    (h : (l.dropWhile p).head? = some b) : p b = false := by
  have hh := List.head?_dropWhile_not p l
  rw [h] at hh
  exact hh

/-- `bytes.Trim s " \000"` splits `s` as `pre ++ trimmed ++ post` with
`pre`/`post` all space/NUL, and the trimmed middle neither starts nor
ends with a space/NUL — i.e. exactly the leading and trailing space/NUL
bytes are removed, and nothing else. -/
theorem goBytesTrim_char (raw : List Nat) :
    ∃ pre post : List Nat,
      raw = pre ++ goBytesTrim raw [0x20, 0x00] ++ post ∧
      (∀ b ∈ pre, b = 0x20 ∨ b = 0) ∧
      (∀ b ∈ post, b = 0x20 ∨ b = 0) ∧
      (∀ b, (goBytesTrim raw [0x20, 0x00]).head? = some b → ¬(b = 0x20 ∨ b = 0)) ∧
      (∀ b, (goBytesTrim raw [0x20, 0x00]).getLast? = some b → ¬(b = 0x20 ∨ b = 0)) := by
  have hpb : ∀ b : Nat, ([(0x20 : Nat), 0x00].contains b) = true ↔ (b = 0x20 ∨ b = 0) := by
    intro b
    simp [List.contains]
  set p : Nat → Bool := fun b => [(0x20 : Nat), 0x00].contains b with hp
  have htrim : goBytesTrim raw [0x20, 0x00] =
      ((raw.dropWhile p).reverse.dropWhile p).reverse := rfl
  have hsplit : raw.dropWhile p =
      goBytesTrim raw [0x20, 0x00] ++ ((raw.dropWhile p).reverse.takeWhile p).reverse := by
    rw [htrim]
    calc raw.dropWhile p = (raw.dropWhile p).reverse.reverse :=
          (List.reverse_reverse _).symm
      _ = (((raw.dropWhile p).reverse.takeWhile p) ++
            ((raw.dropWhile p).reverse.dropWhile p)).reverse := by
          rw [List.takeWhile_append_dropWhile]
      _ = ((raw.dropWhile p).reverse.dropWhile p).reverse ++
            ((raw.dropWhile p).reverse.takeWhile p).reverse := by
          rw [List.reverse_append]
  refine ⟨raw.takeWhile p, ((raw.dropWhile p).reverse.takeWhile p).reverse,
    ?_, ?_, ?_, ?_, ?_⟩
  · rw [List.append_assoc, ← hsplit, List.takeWhile_append_dropWhile]
  · intro b hb
    exact (hpb b).mp (List.mem_takeWhile_imp hb)
  · intro b hb
    rw [List.mem_reverse] at hb
    exact (hpb b).mp (List.mem_takeWhile_imp hb)
  · intro b hb hcut
    have hhead : (raw.dropWhile p).head? = some b := by
      rw [hsplit]
      cases hg : goBytesTrim raw [0x20, 0x00] with
      | nil => rw [hg] at hb; exact absurd hb (by simp)
      | cons x t =>
        rw [hg] at hb
        rw [List.head?_cons, Option.some.injEq] at hb
        rw [List.cons_append, List.head?_cons, hb]
    have hf : ([(0x20 : Nat), 0x00].contains b) = false := head?_dropWhile_false raw b hhead
    have ht := (hpb b).mpr hcut
    rw [hf] at ht
    exact Bool.noConfusion ht
  · intro b hb hcut
    rw [htrim, List.getLast?_reverse] at hb
    have hf : ([(0x20 : Nat), 0x00].contains b) = false :=
      head?_dropWhile_false (raw.dropWhile p).reverse b hb
    have ht := (hpb b).mpr hcut
    rw [hf] at ht
    exact Bool.noConfusion ht

/-- C8 (amended): the `ZoneName` produced by both projections equals the
raw 12-byte field with its leading **and** trailing space (0x20) and NUL
(0x00) bytes removed, and nothing else removed (`bytes.Trim` trims both
ends). -/
theorem zoneName_trim_amended (cfg : TStatZoneParams) (params : TStatCurrentParams) (zi : Nat) :
    (mkZoneEntry cfg params zi).ZoneName = goBytesTrim (cfg.ZName.getD zi []) [0x20, 0x00] ∧
    (∀ c, getZNConfig (zi : Int) (some cfg) (some params) = some c →
      c.ZoneName = goBytesTrim (cfg.ZName.getD zi []) [0x20, 0x00]) ∧
    (∀ raw : List Nat, ∃ pre post : List Nat,
      raw = pre ++ goBytesTrim raw [0x20, 0x00] ++ post ∧
      (∀ b ∈ pre, b = 0x20 ∨ b = 0) ∧
      (∀ b ∈ post, b = 0x20 ∨ b = 0) ∧
      (∀ b, (goBytesTrim raw [0x20, 0x00]).head? = some b → ¬(b = 0x20 ∨ b = 0)) ∧
      (∀ b, (goBytesTrim raw [0x20, 0x00]).getLast? = some b → ¬(b = 0x20 ∨ b = 0))) := by
  refine ⟨rfl, ?_, goBytesTrim_char⟩
  intro c hc
  unfold getZNConfig at hc
  by_cases hrange : (zi : Int) < 0 ∨ 7 < (zi : Int)
  · rw [if_pos hrange] at hc
    exact Option.noConfusion hc
  · rw [if_neg hrange] at hc
    have := Option.some.inj hc
    rw [← this]
    show goBytesTrim (cfg.ZName.getD (zi : Int).toNat []) [0x20, 0x00] = _
    rw [Int.toNat_natCast]

/-- Witness for C8: the characterization at the sample raw name
`20 41 00 … 00`. -/
theorem zoneName_trim_amended_witness :
    ∃ pre post : List Nat,
      rawNameEx = pre ++ goBytesTrim rawNameEx [0x20, 0x00] ++ post ∧
      (∀ b ∈ pre, b = 0x20 ∨ b = 0) ∧
      (∀ b ∈ post, b = 0x20 ∨ b = 0) ∧
      (∀ b, (goBytesTrim rawNameEx [0x20, 0x00]).head? = some b → ¬(b = 0x20 ∨ b = 0)) ∧
      (∀ b, (goBytesTrim rawNameEx [0x20, 0x00]).getLast? = some b → ¬(b = 0x20 ∨ b = 0)) :=
  (zoneName_trim_amended cfgEx paramsEx 0).2.2 rawNameEx

/-- The poller's running `hum` variable: folding over the zone list
leaves the last element's humidity (or the initial value on an empty
list). -/
theorem foldl_hum : ∀ (zs : List TStatZoneConfig) (a : Nat),
    zs.foldl (fun _ z => z.CurrentHumidity) a =
      (match zs.getLast? with
       | none => a
       | some z => z.CurrentHumidity) := by
  intro zs
  induction zs with
  | nil => intro a; rfl
  | cons z t ih =>
    intro a
    rw [List.foldl_cons, ih]
    cases t with
    | nil => simp
    | cons b t2 =>
      rw [List.getLast?_cons_cons]
      cases hgl : (b :: t2).getLast? with
      | none => simp at hgl
      | some w => rfl

theorem lastHum_of_getLast?_none {zs : List TStatZoneConfig} (h : zs.getLast? = none) :
    lastHum zs = 0 := by
  unfold lastHum
  rw [foldl_hum, h]

theorem lastHum_of_getLast?_some {zs : List TStatZoneConfig} {z : TStatZoneConfig}
    (h : zs.getLast? = some z) : lastHum zs = z.CurrentHumidity := by
  unfold lastHum
  rw [foldl_hum, h]

/-- Keys of the per-zone mirror updates never collide with the flat
humidity key. -/
theorem zone_key_ne_hum : ∀ n, n < 9 → 1 ≤ n →
    ∀ t ∈ ["/currentTemp", "/humidity", "/coolSetpoint", "/heatSetpoint",
           "/fanMode", "/hold", "/overrideDuration", "/preset"],
      ("mqtt/infinitive/zone/" ++ Nat.repr n ++ t) ≠ "mqtt/infinitive/humidity" := by
  decide

theorem zoneUpdates_filter_hum (z : TStatZoneConfig)
    (h1 : 1 ≤ z.ZoneNumber) (h8 : z.ZoneNumber ≤ 8) :
    ((zoneUpdates z).filter (fun kv => decide (kv.1 = "mqtt/infinitive/humidity"))) = [] := by
  have hne := zone_key_ne_hum z.ZoneNumber (by omega) h1
  rw [List.filter_eq_nil_iff]
  intro kv hkv
  unfold zoneUpdates at hkv
  simp only [List.mem_cons, List.not_mem_nil, or_false] at hkv
  simp only [decide_eq_true_eq]
  rcases hkv with h | h | h | h | h | h | h | h <;> subst h <;>
    exact hne _ (by simp)

theorem zoneList_number_bounds (cfg : TStatZoneParams) (params : TStatCurrentParams) :
    ∀ z ∈ zoneList cfg params, 1 ≤ z.ZoneNumber ∧ z.ZoneNumber ≤ 8 := by
  intro z hz
  obtain ⟨zi, h8, _, rfl⟩ := (mem_zoneList cfg params z).mp hz
  rw [mkZoneEntry_ZoneNumber]
  omega

theorem flatten_filter_hum (zs : List TStatZoneConfig)
    (hb : ∀ z ∈ zs, 1 ≤ z.ZoneNumber ∧ z.ZoneNumber ≤ 8) :
    (((zs.map zoneUpdates).flatten).filter
        (fun kv => decide (kv.1 = "mqtt/infinitive/humidity"))) = [] := by
  induction zs with
  | nil => rfl
  | cons z t ih =>
    rw [List.map_cons, List.flatten_cons, List.filter_append,
      zoneUpdates_filter_hum z (hb z (List.mem_cons_self z t)).1 (hb z (List.mem_cons_self z t)).2,
      List.nil_append]
    exact ih (fun w hw => hb w (List.mem_cons_of_mem z hw))

/-- C10: on a successful tick the flat `mqtt/infinitive/humidity` key is
written exactly when the *last* zone of the compacted list has nonzero
humidity, and the value written is that last zone's humidity; with an
empty zone list or a last-zone humidity of 0 the key is not touched. -/
theorem poller_humidity_last_zone (r1 : Option TStatZoneParams) (r2 : Option TStatCurrentParams)
    (c1 : TStatZonesConfig) (h : getZonesConfig r1 r2 = some c1) :
    ((pollerTickUpdates r1 r2).filter (fun kv => decide (kv.1 = "mqtt/infinitive/humidity"))) =
      (match c1.Zones.getLast? with
       | none => []
       | some z =>
         if 0 < z.CurrentHumidity then
           [("mqtt/infinitive/humidity", CacheVal.n z.CurrentHumidity)]
         else []) := by
  cases r1 with
  | none => exact Option.noConfusion h
  | some cfg =>
    cases r2 with
    | none => exact Option.noConfusion h
    | some params =>
      have hc : c1 = buildZonesConfig cfg params := (Option.some.inj h).symm
      subst hc
      unfold pollerTickUpdates
      rw [h]
      rw [List.filter_append, List.filter_append, List.filter_append]
      rw [show (buildZonesConfig cfg params).Zones = zoneList cfg params from rfl]
      rw [flatten_filter_hum _ (zoneList_number_bounds cfg params)]
      cases hg : (zoneList cfg params).getLast? with
      | none =>
        rw [if_neg (by rw [lastHum_of_getLast?_none hg]; omega)]
        simp
      | some z =>
        by_cases hum : 0 < z.CurrentHumidity
        · rw [if_pos (by rw [lastHum_of_getLast?_some hg]; omega),
            lastHum_of_getLast?_some hg]
          simp [hum]
        · rw [if_neg (by rw [lastHum_of_getLast?_some hg]; omega)]
          simp [hum]

/-- Witness for C10 on the sample tables: the single active zone has
humidity 0, so the flat humidity key is not written. -/
theorem poller_humidity_last_zone_witness :
    ((pollerTickUpdates (some cfgEx) (some paramsEx)).filter
        (fun kv => decide (kv.1 = "mqtt/infinitive/humidity"))) =
      (match (buildZonesConfig cfgEx paramsEx).Zones.getLast? with
       | none => []
       | some z =>
         if 0 < z.CurrentHumidity then
           [("mqtt/infinitive/humidity", CacheVal.n z.CurrentHumidity)]
         else []) :=
  poller_humidity_last_zone (some cfgEx) (some paramsEx) (buildZonesConfig cfgEx paramsEx) rfl

end Infinitive
